import Mathlib

/-!
Shallow embedding of the `web-accessibility-audit` scripts
(`severity_guard.py`, `a11y_report_scaffold.py`, `issue_from_template.py`)
together with theorems about the severity consistency engine, the report
renderer and the issue-id allocator.

Documents and free text are modelled as `List Char`; file discovery and
file reading are treated as the external boundary, so functions that read
files in the scripts take the file contents (or the list of discovered
file names) as arguments here.
-/

namespace A11y

/-! ## severity_guard.py -/

/-- The four severity values of `SEVERITY_ORDER` in `severity_guard.py`.
`parse_declared_severity` and the rules only ever produce these four. -/
inductive Sev where
  | crit
  | high
  | med
  | low
deriving DecidableEq, Repr

/-- The Python string for each severity value. -/
def sevName : Sev → String
  | .crit => "Critical"
  | .high => "High"
  | .med => "Medium"
  | .low => "Low"

/-- `SEVERITY_ORDER = {"Critical": 0, "High": 1, "Medium": 2, "Low": 3}`. -/
def SEVERITY_ORDER : Sev → Nat
  | .crit => 0
  | .high => 1
  | .med => 2
  | .low => 3

/-- ASCII lower-casing of one character, as applied by `re.IGNORECASE`
matching of the all-lowercase, all-ASCII rule patterns. -/
def lowCh (c : Char) : Char :=
  if 'A' ≤ c ∧ c ≤ 'Z' then Char.ofNat (c.toNat + 32) else c

/-- `isPre p cs` is true when the list `p` is an initial segment of `cs`. -/
def isPre : List Char → List Char → Bool
  | [], _ => true
  | _ :: _, [] => false
  | p :: ps, c :: cs => p == c && isPre ps cs

/-- `hasSub hay pat` is true when `pat` occurs contiguously inside `hay`;
this models `pattern.search` for a single literal alternative. -/
def hasSub : List Char → List Char → Bool
  | [], pat => pat.isEmpty
  | c :: cs, pat => isPre pat (c :: cs) || hasSub cs pat

/-- One rule pattern of `RULES` is an alternation of lowercase literals;
`re.IGNORECASE` search of the whole document is substring search of any
alternative in the lower-cased document. -/
def ruleMatches (pats : List (List Char)) (content : List Char) : Bool :=
  pats.any (fun p => hasSub (content.map lowCh) p)

/-- Alternatives of the first rule pattern of `RULES`:
`core task blocked|cannot complete|keyboard trap|inaccessible login`. -/
def critPats : List (List Char) :=
  [ "core task blocked".data, "cannot complete".data,
    "keyboard trap".data, "inaccessible login".data ]

/-- Alternatives of the second rule pattern of `RULES`:
`checkout|payment|authentication|sign in|screen reader cannot`. -/
def highPats : List (List Char) :=
  [ "checkout".data, "payment".data, "authentication".data,
    "sign in".data, "screen reader cannot".data ]

/-- Alternatives of the third rule pattern of `RULES`:
`contrast|focus indicator|aria-|label missing`. -/
def medPats : List (List Char) :=
  [ "contrast".data, "focus indicator".data,
    "aria-".data, "label missing".data ]

/-- Rationale string of the first rule. -/
def critReason : String := "Issue text indicates a blocker for core user tasks."

/-- Rationale string of the second rule. -/
def highReason : String :=
  "Issue impacts critical flow or key assistive technology behavior."

/-- Rationale string of the third rule. -/
def medReason : String := "Issue indicates a notable accessibility barrier."

/-- `RULES`: the ordered (pattern, severity, rationale) triples. -/
def RULES : List (List (List Char) × Sev × String) :=
  [ (critPats, .crit, critReason),
    (highPats, .high, highReason),
    (medPats, .med, medReason) ]

/-- The `for pattern, severity, reason in RULES` loop body of
`infer_minimum_severity`: first matching rule wins. -/
def inferFrom : List (List (List Char) × Sev × String) → List Char → Option (Sev × String)
  | [], _ => none
  | (pats, s, r) :: rest, content =>
    if ruleMatches pats content then some (s, r) else inferFrom rest content

/-- `infer_minimum_severity(content)`. -/
def infer_minimum_severity (content : List Char) : Option (Sev × String) :=
  inferFrom RULES content

/-- Python `\s` on the ASCII range (space, tab, newline, carriage return,
vertical tab, form feed), as used by the declared-severity regex. -/
def isPyWs (c : Char) : Bool :=
  c == ' ' || c == '\t' || c == '\n' || c == '\r' ||
    c == Char.ofNat 11 || c == Char.ofNat 12

/-- Drop a maximal run of whitespace, modelling the `\s*` between
`- Severity:` and the severity literal (the literal starts with a
non-whitespace character, so backtracking cannot stop earlier). -/
def dropWs : List Char → List Char
  | [] => []
  | c :: cs => if isPyWs c then dropWs cs else c :: cs

/-- `\s*$` in MULTILINE mode at the current position: some run of
whitespace characters followed by the end of the string or a newline. -/
def wsToEol : List Char → Bool
  | [] => true
  | c :: cs => if c == '\n' then true else isPyWs c && wsToEol cs

/-- Try the alternation `(Critical|High|Medium|Low)` at the head of `cs`,
returning the parsed value and the rest. -/
def matchSevLit (cs : List Char) : Option (Sev × List Char) :=
  if isPre "Critical".data cs then some (.crit, cs.drop 8)
  else if isPre "High".data cs then some (.high, cs.drop 4)
  else if isPre "Medium".data cs then some (.med, cs.drop 6)
  else if isPre "Low".data cs then some (.low, cs.drop 3)
  else none

/-- Try the body of the declared-severity regex
`- Severity:\s*(Critical|High|Medium|Low)\s*$` at one position (which the
caller guarantees to be the start of a line). -/
def sevLineAt (cs : List Char) : Option Sev :=
  if isPre "- Severity:".data cs then
    match matchSevLit (dropWs (cs.drop 11)) with
    | some (s, rest) => if wsToEol rest then some s else none
    | none => none
  else none

/-- Scan every position of the document left to right, collecting the
declared severities matched at line starts (`^` in MULTILINE mode holds at
the start of the string and right after each newline).  `atStart` says
whether the current position is a line start. -/
def searchSevLines : Bool → List Char → List Sev
  | atStart, cs =>
    let here := if atStart then (sevLineAt cs).toList else []
    match cs with
    | [] => here
    | c :: cs' => here ++ searchSevLines (c == '\n') cs'

/-- All declared-severity matches of a document, in position order. -/
def allDeclaredSeverities (content : List Char) : List Sev :=
  searchSevLines true content

/-- `parse_declared_severity(content)`: `re.search` returns the leftmost
match, i.e. the head of the list of all matches. -/
def parse_declared_severity (content : List Char) : Option Sev :=
  (allDeclaredSeverities content).head?

/-- Message of the missing-declaration branch of `check_file`. -/
def missingMsg : String := "Missing '- Severity: ...' line"

/-- Message of the no-rule-trigger branch of `check_file`. -/
def okNoRuleMsg (declared : Sev) : String :=
  "OK: no rule trigger, declared severity '" ++ sevName declared ++ "' accepted"

/-- Failure message of `check_file`: it names the declared value, the
inferred minimum and the matched rule's rationale. -/
def failMsg (declared minimum : Sev) (reason : String) : String :=
  "Declared '" ++ sevName declared ++ "' is lower than inferred minimum '" ++
    sevName minimum ++ "'. " ++ reason

/-- Success message of the comparison branch of `check_file`. -/
def okMetMsg (declared minimum : Sev) : String :=
  "OK: declared '" ++ sevName declared ++ "' meets inferred minimum '" ++
    sevName minimum ++ "'"

/-- The part of `check_file` that runs after the declared severity has been
extracted. -/
def checkDeclared (declared : Sev) (content : List Char) : Bool × String :=
  match infer_minimum_severity content with
  | none => (true, okNoRuleMsg declared)
  | some (minimum, reason) =>
    if SEVERITY_ORDER minimum < SEVERITY_ORDER declared then
      (false, failMsg declared minimum reason)
    else
      (true, okMetMsg declared minimum)

/-- `check_file`, applied to the contents of the file (reading the file is
the external boundary). -/
def check_file (content : List Char) : Bool × String :=
  match parse_declared_severity content with
  | none => (false, missingMsg)
  | some declared => checkDeclared declared content

/-- The `for file_path in files` loop of `main` in `severity_guard.py`:
one `(ok, message)` report entry per file and the `has_failures` flag. -/
def batchLoop : List (List Char) → List (Bool × String) × Bool
  | [] => ([], false)
  | d :: ds =>
    let r := check_file d
    let rest := batchLoop ds
    (r :: rest.fst, (!r.fst) || rest.snd)

/-- `main` of `severity_guard.py` after argument parsing and file discovery:
given the contents of the discovered files, the per-file report entries and
the process exit code.  An empty list prints `No issue files found.` and
returns 0; otherwise the exit code is 1 when `has_failures` and 0 when not. -/
def runBatch (docs : List (List Char)) : List (Bool × String) × Nat :=
  if docs.isEmpty then ([], 0)
  else
    let r := batchLoop docs
    (r.fst, if r.snd then 1 else 0)

/-- A document declaring `Low` whose text contains the word `checkout`. -/
def lowCheckoutDoc : List Char :=
  ("# Issue\n- Severity: Low\nThe checkout button is skipped by tab order.\n").data

/-- A document with two parseable declared-severity lines and no
rule-triggering text. -/
def twoDeclDoc : List Char :=
  ("- Severity: Critical\n- Severity: Critical").data

/-- A document with two parseable declared-severity lines (`Low` first,
then `High`) whose text also contains `checkout`. -/
def lowHighDoc : List Char :=
  ("- Severity: Low\n- Severity: High\ncheckout").data

/-- A text matching both the Critical-blocker pattern (`keyboard trap`) and
the contrast pattern of the Medium rule. -/
def bothPatsDoc : List Char :=
  ("Keyboard trap on the low contrast dialog.").data

/-! ## Theorems about the severity consistency engine -/

/-- Claim C1: for every issue document whose declared severity parses and
for which the rule engine returns a floor, the consistency check passes iff
the declared severity's rank is numerically at most the floor's rank
(Critical=0, High=1, Medium=2, Low=3); on failure the message is
`failMsg declared minimum reason`, which names both the declared value and
the floor and includes the matched rule's rationale. -/
theorem check_pass_iff_rank_le (content : List Char) (d m : Sev) (r : String)
    (hd : parse_declared_severity content = some d)
    (hm : infer_minimum_severity content = some (m, r)) :
    ((check_file content).fst = true ↔ SEVERITY_ORDER d ≤ SEVERITY_ORDER m) ∧
      (SEVERITY_ORDER m < SEVERITY_ORDER d →
        check_file content = (false, failMsg d m r)) := by
  have hcf : check_file content =
      if SEVERITY_ORDER m < SEVERITY_ORDER d
      then (false, failMsg d m r) else (true, okMetMsg d m) := by
    unfold check_file checkDeclared
    rw [hd, hm]
  by_cases h : SEVERITY_ORDER m < SEVERITY_ORDER d
  · rw [hcf, if_pos h]
    exact ⟨⟨fun hff => by simp at hff, fun hle => absurd h (by omega)⟩,
      fun _ => rfl⟩
  · rw [hcf, if_neg h]
    exact ⟨⟨fun _ => by omega, fun _ => rfl⟩, fun hlt => absurd hlt h⟩

/-- Witness for C1: the document declaring `Low` whose text contains
`checkout` has floor `High`, so the check fails citing the floor and the
rule's rationale. -/
theorem check_pass_iff_rank_le_witness :
    ((check_file lowCheckoutDoc).fst = true ↔
        SEVERITY_ORDER Sev.low ≤ SEVERITY_ORDER Sev.high) ∧
      (SEVERITY_ORDER Sev.high < SEVERITY_ORDER Sev.low →
        check_file lowCheckoutDoc = (false, failMsg Sev.low Sev.high highReason)) :=
  check_pass_iff_rank_le lowCheckoutDoc Sev.low Sev.high highReason
    (by decide) (by decide)

/-- Claim C2: the rule engine checks the Critical rule, then the High rule,
then the Medium rule, and returns the severity and rationale of the first
rule whose pattern matches; later rules are never consulted once one
matches, so in particular a text matching both the Critical-blocker pattern
and the contrast pattern classifies as Critical, never Medium. -/
theorem infer_first_match_wins (content : List Char) :
    infer_minimum_severity content =
      (if ruleMatches critPats content then some (Sev.crit, critReason)
       else if ruleMatches highPats content then some (Sev.high, highReason)
       else if ruleMatches medPats content then some (Sev.med, medReason)
       else none) := rfl

/-- Witness for C2 at a concrete text matching both the Critical-blocker
pattern and the contrast pattern: the result is Critical, never Medium. -/
theorem infer_first_match_wins_witness :
    ruleMatches critPats bothPatsDoc = true ∧
      ruleMatches medPats bothPatsDoc = true ∧
      infer_minimum_severity bothPatsDoc = some (Sev.crit, critReason) :=
  ⟨by decide, by decide, (infer_first_match_wins bothPatsDoc).trans (by decide)⟩

/-- Claim C3: every text matching the first rule's pattern (an absolute
blocker: `core task blocked`, `cannot complete`, `keyboard trap` or
`inaccessible login`) receives the severity floor Critical. -/
theorem critical_pattern_floor (content : List Char)
    (h : ruleMatches critPats content = true) :
    infer_minimum_severity content = some (Sev.crit, critReason) := by
  simp [infer_minimum_severity, RULES, inferFrom, h]

/-- Witness for C3: a text containing `keyboard trap` gets floor Critical. -/
theorem critical_pattern_floor_witness :
    infer_minimum_severity ("A keyboard trap in the modal blocks all users.").data =
      some (Sev.crit, critReason) :=
  critical_pattern_floor _ (by decide)

/-- Counterexample to C4 as stated: a document with two parseable
declared-severity lines is not treated as missing/ambiguous — `check_file`
passes it (using the first line) instead of failing validation. -/
theorem two_declared_lines_pass :
    allDeclaredSeverities twoDeclDoc = [Sev.crit, Sev.crit] ∧
      (check_file twoDeclDoc).fst = true := by
  constructor
  · decide
  · decide

/-- Claim C4 (amended): a document with zero parseable declared-severity
lines fails with the missing-declared-severity message; a document with one
or more parseable lines proceeds to the rule-engine comparison using the
first parseable line's value. -/
theorem declared_head_or_missing (content : List Char) :
    (allDeclaredSeverities content = [] → check_file content = (false, missingMsg)) ∧
      ∀ d ds, allDeclaredSeverities content = d :: ds →
        check_file content = checkDeclared d content := by
  constructor
  · intro h
    simp [check_file, parse_declared_severity, h]
  · intro d ds h
    simp [check_file, parse_declared_severity, h]

/-- Witness for the amended C4: a document declaring `Low` and then `High`
is compared using `Low`, the first parseable line. -/
theorem declared_head_or_missing_witness :
    allDeclaredSeverities lowHighDoc = [Sev.low, Sev.high] ∧
      check_file lowHighDoc = checkDeclared Sev.low lowHighDoc :=
  ⟨by decide, (declared_head_or_missing lowHighDoc).2 Sev.low [Sev.high] (by decide)⟩

/-- The report lines and `has_failures` flag of the batch loop, computed
per document. -/
theorem batchLoop_eq (docs : List (List Char)) :
    batchLoop docs = (docs.map check_file, docs.any fun d => !(check_file d).fst) := by
  induction docs with
  | nil => rfl
  | cons d ds ih => simp [batchLoop, ih]

/-- `runBatch` computed in closed form: the report entries are one
`check_file` result per document, and the exit code is 1 exactly when some
entry failed (this also covers the empty list, whose code is 0). -/
theorem runBatch_eq (docs : List (List Char)) :
    runBatch docs =
      (docs.map check_file,
        if docs.any (fun d => !(check_file d).fst) then 1 else 0) := by
  cases docs with
  | nil => rfl
  | cons d ds => simp [runBatch, batchLoop_eq]

/-- Claim C8: the batch classifier evaluates and reports every document
independently (one report entry per document, a failure never aborts the
scan), its exit code is 0 exactly when every document passed, and an empty
document list is a trivially successful outcome with exit code 0. -/
theorem batch_reports_all_and_aggregates (docs : List (List Char)) :
    (runBatch docs).fst = docs.map check_file ∧
      ((runBatch docs).snd = 0 ↔ ∀ d ∈ docs, (check_file d).fst = true) ∧
      runBatch [] = ([], 0) := by
  refine ⟨by rw [runBatch_eq], ?_, rfl⟩
  rw [runBatch_eq]
  constructor
  · intro h0 d hd
    by_contra hne
    have hany : docs.any (fun x => !(check_file x).fst) = true :=
      List.any_eq_true.mpr ⟨d, hd, by simp [Bool.not_eq_true] at hne ⊢; exact hne⟩
    rw [if_pos hany] at h0
    omega
  · intro hall
    have hany : docs.any (fun x => !(check_file x).fst) = false := by
      rw [List.any_eq_false]
      intro x hx
      simp [hall x hx]
    simp [hany]

/-! ## a11y_report_scaffold.py -/

/-- JSON values, as produced by `json.loads` for the findings input. -/
inductive JVal where
  | jnull
  | jbool (b : Bool)
  | jnum (n : Int)
  | jstr (s : String)
  | jarr (xs : List JVal)
  | jobj (kvs : List (String × JVal))

/-- `key in obj` for a JSON object. -/
def hasKey (kvs : List (String × JVal)) (k : String) : Bool :=
  kvs.any (fun kv => kv.fst == k)

/-- `obj[key]` / `obj.get(key)` for a JSON object; `json.loads` keeps the
last occurrence of a duplicated key. -/
def jLookup (kvs : List (String × JVal)) (k : String) : Option JVal :=
  (kvs.reverse.find? (fun kv => kv.fst == k)).map Prod.snd

/-- `REQUIRED_KEYS` of `a11y_report_scaffold.py`, in order. -/
def REQUIRED_KEYS : List String :=
  [ "id", "title", "severity", "wcag", "area", "url", "selector",
    "impact", "reproduction", "actual", "expected", "recommended_fix" ]

/-- The required keys absent from one finding object, in `REQUIRED_KEYS`
order (`[key for key in REQUIRED_KEYS if key not in finding]`). -/
def missingOf (kvs : List (String × JVal)) : List String :=
  REQUIRED_KEYS.filter (fun k => !(hasKey kvs k))

/-- The checks the `for index, finding in enumerate(findings, start=1)`
loop of `load_findings` applies to one element; `none` means the element
passes, `some e` is the raised error message. -/
def checkFinding (i : Nat) (f : JVal) : Option String :=
  match f with
  | .jobj kvs =>
    let missing := missingOf kvs
    if missing.isEmpty then
      match jLookup kvs "reproduction" with
      | some (.jarr (_ :: _)) => none
      | _ => some ("Finding #" ++ toString i ++ " needs a non-empty 'reproduction' array")
    else
      some ("Finding #" ++ toString i ++ " is missing keys: " ++
        String.intercalate ", " missing)
  | _ => some ("Finding #" ++ toString i ++ " must be an object")

/-- The element loop of `load_findings`: the first failing element's error,
or `none` when every element passes.  `i` is the 1-based index of the first
element of the remaining list. -/
def validateLoop (i : Nat) : List JVal → Option String
  | [] => none
  | f :: fs =>
    match checkFinding i f with
    | some e => some e
    | none => validateLoop (i + 1) fs

/-- `load_findings`, applied to the parsed JSON payload (reading and JSON
parsing of the input file are the external boundary). -/
def load_findings (payload : JVal) : Except String (List JVal) :=
  match payload with
  | .jobj kvs =>
    if hasKey kvs "findings" then
      match jLookup kvs "findings" with
      | some (.jarr fs) =>
        match validateLoop 1 fs with
        | some e => .error e
        | none => .ok fs
      | some _ => .error "'findings' must be an array"
      | none => .error "Input must be a JSON object with a 'findings' array"
    else .error "Input must be a JSON object with a 'findings' array"
  | _ => .error "Input must be a JSON object with a 'findings' array"

/-- A validated finding record as consumed by `build_markdown`: the twelve
required fields, all plain text except `reproduction`. -/
structure Finding where
  id : String
  title : String
  severity : String
  wcag : String
  area : String
  url : String
  selector : String
  impact : String
  reproduction : List String
  actual : String
  expected : String
  recommended_fix : String
deriving DecidableEq, Repr

/-- `severity_order.get(str(f["severity"]), 99)`: the sort key of
`build_markdown`, with 99 for the unrecognized severities. -/
def severityRank (s : String) : Nat :=
  if s == "Critical" then 0
  else if s == "High" then 1
  else if s == "Medium" then 2
  else if s == "Low" then 3
  else 99

/-- Whether a severity string is one of the four known values. -/
def isKnownSev (s : String) : Bool :=
  s == "Critical" || s == "High" || s == "Medium" || s == "Low"

/-- The sort relation of `build_markdown`: severity rank ascending. -/
def leRank (a b : Finding) : Prop :=
  severityRank a.severity ≤ severityRank b.severity

instance : DecidableRel leRank := fun _ _ => Nat.decLe _ _

instance : IsTotal Finding leRank := ⟨fun _ _ => Nat.le_total _ _⟩

instance : IsTrans Finding leRank := ⟨fun _ _ _ hab hbc => Nat.le_trans hab hbc⟩

/-- `sorted(findings, key=lambda f: severity_order.get(str(f["severity"]), 99))`:
Python's `sorted` is stable, so it is insertion sort by rank. -/
def sortFindings (fs : List Finding) : List Finding :=
  List.insertionSort leRank fs

/-- The per-severity totals of `build_markdown`: how many findings carry
exactly the severity string `s`. -/
def totalsCount (fs : List Finding) (s : String) : Nat :=
  (fs.filter (fun f => f.severity == s)).length

/-- One row of the findings table. -/
def rowLine (f : Finding) : String :=
  "| " ++ f.id ++ " | " ++ f.severity ++ " | " ++ f.wcag ++ " | " ++
    f.area ++ " | " ++ f.impact ++ " |"

/-- The numbered reproduction steps, `enumerate(..., start=1)` style. -/
def numberSteps (i : Nat) : List String → List String
  | [] => []
  | s :: ss => (toString i ++ ". " ++ s) :: numberSteps (i + 1) ss

/-- The issue-details subsection emitted for one finding. -/
def detailBlock (f : Finding) : List String :=
  [ "### " ++ f.id ++ " - " ++ f.title,
    "",
    "- Severity: " ++ f.severity,
    "- WCAG Criterion: " ++ f.wcag,
    "- Affected Area: " ++ f.area,
    "- URL: " ++ f.url,
    "- Selector/Component: " ++ f.selector,
    "",
    "**Reproduction**" ] ++
  numberSteps 1 f.reproduction ++
  [ "",
    "**Actual Behavior**",
    f.actual,
    "",
    "**Expected Behavior**",
    f.expected,
    "",
    "**User Impact**",
    f.impact,
    "",
    "**Recommended Fix**",
    f.recommended_fix,
    "" ]

/-- The executive-summary lines of the report. -/
def headerLines (project today auditor scope wcag_target : String)
    (total tC tH tM tL : Nat) : List String :=
  [ "# Accessibility Report - " ++ project,
    "",
    "## 1. Executive Summary",
    "",
    "- Date: " ++ today,
    "- Auditor: " ++ auditor,
    "- Scope: " ++ scope,
    "- Target: " ++ wcag_target,
    "- Total findings: " ++ toString total,
    "- Severity split: Critical " ++ toString tC ++ ", High " ++ toString tH ++
      ", Medium " ++ toString tM ++ ", Low " ++ toString tL,
    "" ]

/-- The fixed lines opening the findings table. -/
def tableHeadLines : List String :=
  [ "## 2. Findings Table",
    "",
    "| ID | Severity | WCAG | Area | Short Impact |",
    "|---|---|---|---|---|" ]

/-- The fixed lines between the table and the issue details. -/
def detailsHeadLines : List String :=
  [ "", "## 3. Issue Details", "" ]

/-- The fixed remediation-plan and retest-checklist tail of the report. -/
def tailLines : List String :=
  [ "## 4. Remediation Plan",
    "",
    "- Immediate: Fix all Critical and High findings first.",
    "- Current release: Resolve remaining Medium findings tied to affected flows.",
    "- Backlog: Track Low findings and close during related component updates.",
    "",
    "## 5. Retest Checklist",
    "",
    "- Verify each fixed issue with keyboard-only navigation.",
    "- Verify with screen reader spot-check.",
    "- Re-run automated checks and compare diffs.",
    "- Attach updated evidence for each closed issue.",
    "" ]

/-- The `lines` list built by `build_markdown` (`date.today()` is passed in
as `today`): summary, findings table, issue details, then the fixed tail,
with the table rows and the detail subsections both iterating over the
rank-sorted findings. -/
def buildLines (fs0 : List Finding)
    (project scope wcag_target auditor today : String) : List String :=
  let fs := sortFindings fs0
  headerLines project today auditor scope wcag_target fs.length
      (totalsCount fs "Critical") (totalsCount fs "High")
      (totalsCount fs "Medium") (totalsCount fs "Low") ++
    tableHeadLines ++ fs.map rowLine ++ detailsHeadLines ++
    fs.flatMap detailBlock ++ tailLines

/-- `build_markdown`: the joined report text. -/
def build_markdown (fs0 : List Finding)
    (project scope wcag_target auditor today : String) : String :=
  String.intercalate "\n" (buildLines fs0 project scope wcag_target auditor today)

/-- A finding object with all twelve required keys. -/
def fullFinding (ident : String) : JVal :=
  .jobj [ ("id", .jstr ident), ("title", .jstr "t"), ("severity", .jstr "High"),
    ("wcag", .jstr "1.4.3"), ("area", .jstr "a"), ("url", .jstr "u"),
    ("selector", .jstr "s"), ("impact", .jstr "i"),
    ("reproduction", .jarr [.jstr "step"]), ("actual", .jstr "x"),
    ("expected", .jstr "y"), ("recommended_fix", .jstr "z") ]

/-- The key/value pairs of a finding object lacking `wcag` and `url`. -/
def gappyKvs : List (String × JVal) :=
  [ ("id", .jstr "F2"), ("title", .jstr "t"), ("severity", .jstr "High"),
    ("area", .jstr "a"), ("selector", .jstr "s"), ("impact", .jstr "i"),
    ("reproduction", .jarr [.jstr "step"]), ("actual", .jstr "x"),
    ("expected", .jstr "y"), ("recommended_fix", .jstr "z") ]

/-- A three-element findings array whose second element lacks `wcag` and
`url`. -/
def gappyFindings : List JVal :=
  [ fullFinding "F1", .jobj gappyKvs, fullFinding "F3" ]

/-! ## Theorems about schema validation -/

/-- If every element of `fs` passes its per-element checks, the validation
loop reports no error (`k` is the 1-based index of the first element). -/
theorem validateLoop_none (fs : List JVal) (k : Nat)
    (h : ∀ j g, fs[j]? = some g → checkFinding (k + j) g = none) :
    validateLoop k fs = none := by
  induction fs generalizing k with
  | nil => rfl
  | cons f fs ih =>
    have h0 : checkFinding k f = none := by simpa using h 0 f (by simp)
    rw [validateLoop, h0]
    exact ih (k + 1) fun j g hg => by
      have hx := h (j + 1) g (by simpa using hg)
      simpa [show k + (j + 1) = k + 1 + j by omega] using hx

/-- The validation loop raises exactly the error of the first failing
element: if the elements before position `i` all pass and the element at
`i` fails with `e`, the loop's result is `e`. -/
theorem validateLoop_first_error (fs : List JVal) (k i : Nat) (f : JVal)
    (e : String) (hf : fs[i]? = some f)
    (hgood : ∀ j g, j < i → fs[j]? = some g → checkFinding (k + j) g = none)
    (herr : checkFinding (k + i) f = some e) :
    validateLoop k fs = some e := by
  induction fs generalizing k i with
  | nil => simp at hf
  | cons a fs ih =>
    cases i with
    | zero =>
      have ha : a = f := by simpa using hf
      subst ha
      rw [validateLoop]
      rw [show k + 0 = k from rfl] at herr
      rw [herr]
    | succ i =>
      have ha : checkFinding k a = none := by
        simpa using hgood 0 a (Nat.succ_pos i) (by simp)
      rw [validateLoop, ha]
      refine ih (k + 1) i (by simpa using hf) ?_ ?_
      · intro j g hj hg
        have hx := hgood (j + 1) g (by omega) (by simpa using hg)
        simpa [show k + (j + 1) = k + 1 + j by omega] using hx
      · simpa [show k + (i + 1) = k + 1 + i by omega] using herr

/-- Claim C5: if the elements before position `i` pass their checks and the
element at `i` is an object lacking required keys, `load_findings` fails
with a message naming position `i + 1` and enumerating all of that
element's missing keys (in `REQUIRED_KEYS` order); and a findings array
that passes validation is returned unchanged. -/
theorem load_findings_names_missing_keys (fs : List JVal) :
    (∀ i kvs, fs[i]? = some (JVal.jobj kvs) →
        (∀ j g, j < i → fs[j]? = some g → checkFinding (j + 1) g = none) →
        missingOf kvs ≠ [] →
        load_findings (JVal.jobj [("findings", JVal.jarr fs)]) =
          .error ("Finding #" ++ toString (i + 1) ++ " is missing keys: " ++
            String.intercalate ", " (missingOf kvs))) ∧
      (validateLoop 1 fs = none →
        load_findings (JVal.jobj [("findings", JVal.jarr fs)]) = .ok fs) := by
  have hw : load_findings (JVal.jobj [("findings", JVal.jarr fs)]) =
      (match validateLoop 1 fs with
        | some e => .error e
        | none => .ok fs) := rfl
  constructor
  · intro i kvs hf hgood hne
    have herr : checkFinding (1 + i) (JVal.jobj kvs) =
        some ("Finding #" ++ toString (i + 1) ++ " is missing keys: " ++
          String.intercalate ", " (missingOf kvs)) := by
      have hie : (missingOf kvs).isEmpty = false := by
        cases hmk : missingOf kvs with
        | nil => exact absurd hmk hne
        | cons x xs => rfl
      rw [checkFinding]
      simp only [hie, Bool.false_eq_true, if_false]
      rw [show 1 + i = i + 1 from Nat.add_comm 1 i]
    have hloop := validateLoop_first_error fs 1 i (JVal.jobj kvs) _ hf
      (fun j g hj hg => by simpa [Nat.add_comm 1 j] using hgood j g hj hg) herr
    rw [hw, hloop]
  · intro hnone
    rw [hw, hnone]

/-- Witness for C5: removing `wcag` and `url` from finding 2 of 3 yields an
error naming finding 2 and exactly those two keys. -/
theorem load_findings_names_missing_keys_witness :
    missingOf gappyKvs = ["wcag", "url"] ∧
      load_findings (JVal.jobj [("findings", JVal.jarr gappyFindings)]) =
        .error ("Finding #" ++ toString 2 ++ " is missing keys: " ++
          String.intercalate ", " (missingOf gappyKvs)) := by
  constructor
  · decide
  · exact (load_findings_names_missing_keys gappyFindings).1 1 gappyKvs rfl
      (fun j g hj hg => by
        have hj0 : j = 0 := by omega
        subst hj0
        have hg' : some (fullFinding "F1") = some g := hg
        injection hg' with hg''
        subst hg''
        rfl)
      (by decide)

/-! ## Theorems about the report renderer -/

/-- `orderedInsert` walks past exactly the elements of strictly smaller
rank, so on the rank-`k` slice it acts by prepending (when the inserted
element has rank `k`) or not at all. -/
theorem filter_rank_orderedInsert (k : Nat) (a : Finding) (l : List Finding) :
    (List.orderedInsert leRank a l).filter
        (fun f => severityRank f.severity == k) =
      (if severityRank a.severity == k then
        a :: l.filter (fun f => severityRank f.severity == k)
      else l.filter (fun f => severityRank f.severity == k)) := by
  induction l with
  | nil =>
    cases h : (severityRank a.severity == k) <;>
      simp [List.orderedInsert, List.filter_cons, h]
  | cons b l ih =>
    by_cases hab : leRank a b
    · rw [List.orderedInsert, if_pos hab]
      cases h : (severityRank a.severity == k) <;>
        simp [List.filter_cons, h]
    · rw [List.orderedInsert, if_neg hab]
      have hba : severityRank b.severity < severityRank a.severity := by
        simp only [leRank, Nat.not_le] at hab
        exact hab
      by_cases hbk : (severityRank b.severity == k) = true
      · have hak : (severityRank a.severity == k) = false := by
          have hb : severityRank b.severity = k := eq_of_beq hbk
          have : severityRank a.severity ≠ k := by omega
          exact beq_eq_false_iff_ne.mpr this
        simp [List.filter_cons, hbk, hak, ih]
      · have hbk' : (severityRank b.severity == k) = false := by
          cases hx : (severityRank b.severity == k)
          · rfl
          · exact absurd hx hbk
        cases hak : (severityRank a.severity == k) <;>
          simp [List.filter_cons, hbk', hak, ih]

/-- Python's stable sort keeps each equal-rank slice in input order: the
rank-`k` filter of the sorted findings equals the rank-`k` filter of the
input. -/
theorem filter_rank_sortFindings (k : Nat) (fs : List Finding) :
    (sortFindings fs).filter (fun f => severityRank f.severity == k) =
      fs.filter (fun f => severityRank f.severity == k) := by
  induction fs with
  | nil => rfl
  | cons f fs ih =>
    have hs : sortFindings (f :: fs) =
        List.orderedInsert leRank f (sortFindings fs) := rfl
    rw [hs, filter_rank_orderedInsert]
    cases h : (severityRank f.severity == k) <;>
      simp [List.filter_cons, h, ih]

/-- `totalsCount` as a `countP`. -/
theorem totalsCount_eq_countP (l : List Finding) (s : String) :
    totalsCount l s = l.countP (fun f => f.severity == s) :=
  (List.countP_eq_length_filter _ _).symm

/-- Every finding falls in exactly one of the five classes: the four known
severities or the unknown remainder. -/
theorem totals_split_add_unknown (fs : List Finding) :
    totalsCount fs "Critical" + totalsCount fs "High" + totalsCount fs "Medium" +
        totalsCount fs "Low" + fs.countP (fun g => !isKnownSev g.severity) =
      fs.length := by
  simp only [totalsCount_eq_countP]
  induction fs with
  | nil => rfl
  | cons g fs ih =>
    simp only [List.countP_cons, List.length_cons]
    have hone : (if (g.severity == "Critical") = true then 1 else 0) +
        (if (g.severity == "High") = true then 1 else 0) +
        (if (g.severity == "Medium") = true then 1 else 0) +
        (if (g.severity == "Low") = true then 1 else 0) +
        (if (!isKnownSev g.severity) = true then 1 else 0) = 1 := by
      by_cases h1 : g.severity = "Critical"
      · rw [h1]; decide
      · by_cases h2 : g.severity = "High"
        · rw [h2]; decide
        · by_cases h3 : g.severity = "Medium"
          · rw [h3]; decide
          · by_cases h4 : g.severity = "Low"
            · rw [h4]; decide
            · have e1 := beq_eq_false_iff_ne.mpr h1
              have e2 := beq_eq_false_iff_ne.mpr h2
              have e3 := beq_eq_false_iff_ne.mpr h3
              have e4 := beq_eq_false_iff_ne.mpr h4
              simp [isKnownSev, e1, e2, e3, e4]
    omega

/-- Splitting a `flatMap` around one member of the list. -/
theorem flatMap_split {α β : Type} (g : α → List β) (a : α) (l : List α)
    (hl : a ∈ l) : ∃ l1 l2, l.flatMap g = l1 ++ g a ++ l2 := by
  induction l with
  | nil => simp at hl
  | cons b l ih =>
    rcases List.mem_cons.mp hl with h | h
    · subst h
      exact ⟨[], l.flatMap g, by simp⟩
    · obtain ⟨l1, l2, hs⟩ := ih h
      exact ⟨g b ++ l1, l2, by simp [hs]⟩

/-- Claim C6: the rendered report consists of the summary, the table head,
exactly one table row per finding, the details head, exactly one detail
subsection per finding, and the fixed tail; the rows and the subsections
iterate over the same sorted list, which is rank-ascending sorted, has the
input's length, and is stable (each rank slice keeps the input order). -/
theorem report_rows_and_details_sorted (fs : List Finding)
    (project scope wcag_target auditor today : String) :
    (buildLines fs project scope wcag_target auditor today =
        headerLines project today auditor scope wcag_target
            (sortFindings fs).length
            (totalsCount (sortFindings fs) "Critical")
            (totalsCount (sortFindings fs) "High")
            (totalsCount (sortFindings fs) "Medium")
            (totalsCount (sortFindings fs) "Low") ++
          tableHeadLines ++ (sortFindings fs).map rowLine ++ detailsHeadLines ++
          (sortFindings fs).flatMap detailBlock ++ tailLines) ∧
      ((sortFindings fs).map rowLine).length = fs.length ∧
      (sortFindings fs).length = fs.length ∧
      (sortFindings fs).Pairwise leRank ∧
      (∀ k, (sortFindings fs).filter (fun f => severityRank f.severity == k) =
        fs.filter (fun f => severityRank f.severity == k)) := by
  refine ⟨rfl, ?_, ?_, ?_, fun k => filter_rank_sortFindings k fs⟩
  · rw [List.length_map]
    exact (List.perm_insertionSort leRank fs).length_eq
  · exact (List.perm_insertionSort leRank fs).length_eq
  · exact List.sorted_insertionSort leRank fs

/-- Claim C7: a finding with an unrecognized severity string is attributed
to none of the four buckets of the severity split (each bucket counts only
the findings carrying exactly that known severity, and together with the
unknown remainder the buckets partition the total), while the total count
includes it and it still gets a table row and a details subsection. -/
theorem unknown_severity_counted_in_total_only (fs : List Finding) (f : Finding)
    (hmem : f ∈ fs) (hunk : isKnownSev f.severity = false) :
    (∀ s, isKnownSev s = true →
        totalsCount (sortFindings fs) s = totalsCount fs s ∧
          f ∉ fs.filter (fun g => g.severity == s)) ∧
      totalsCount fs "Critical" + totalsCount fs "High" + totalsCount fs "Medium" +
          totalsCount fs "Low" + fs.countP (fun g => !isKnownSev g.severity) =
        fs.length ∧
      0 < fs.countP (fun g => !isKnownSev g.severity) ∧
      (sortFindings fs).length = fs.length ∧
      rowLine f ∈ (sortFindings fs).map rowLine ∧
      ∃ l1 l2, (sortFindings fs).flatMap detailBlock = l1 ++ detailBlock f ++ l2 := by
  have hmem' : f ∈ sortFindings fs := (List.mem_insertionSort leRank).mpr hmem
  refine ⟨?_, totals_split_add_unknown fs, ?_, ?_, ?_, ?_⟩
  · intro s hs
    constructor
    · rw [totalsCount_eq_countP, totalsCount_eq_countP]
      exact (List.perm_insertionSort leRank fs).countP_eq _
    · intro hin
      have hfs : (f.severity == s) = true := (List.mem_filter.mp hin).2
      have : f.severity = s := eq_of_beq hfs
      rw [this, hs] at hunk
      exact absurd hunk (by decide)
  · exact List.countP_pos_iff.mpr ⟨f, hmem, by simp [hunk]⟩
  · exact (List.perm_insertionSort leRank fs).length_eq
  · exact List.mem_map_of_mem rowLine hmem'
  · exact flatMap_split detailBlock f (sortFindings fs) hmem'

/-- A finding record with the given id and severity and fixed other
fields. -/
def mkFinding (i sev : String) : Finding :=
  { id := i, title := "t", severity := sev, wcag := "1.1.1", area := "a",
    url := "u", selector := "s", impact := "imp", reproduction := ["step"],
    actual := "x", expected := "y", recommended_fix := "z" }

/-- Three findings, the middle one with the unrecognized severity
`Severe`. -/
def wfs : List Finding :=
  [ mkFinding "F1" "Critical", mkFinding "F2" "Severe", mkFinding "F3" "Low" ]

/-- Witness for C7: the finding with severity `Severe` is counted in the
total (the unknown remainder is nonempty) and still gets a table row. -/
theorem unknown_severity_counted_in_total_only_witness :
    0 < wfs.countP (fun g => !isKnownSev g.severity) ∧
      rowLine (mkFinding "F2" "Severe") ∈ (sortFindings wfs).map rowLine :=
  ⟨(unknown_severity_counted_in_total_only wfs (mkFinding "F2" "Severe")
      (by decide) (by decide)).2.2.1,
    (unknown_severity_counted_in_total_only wfs (mkFinding "F2" "Severe")
      (by decide) (by decide)).2.2.2.2.1⟩

/-- A severity rank never exceeds 99. -/
theorem severityRank_le (s : String) : severityRank s ≤ 99 := by
  unfold severityRank
  split_ifs <;> omega

/-- A severity string is unrecognized exactly when its sort rank is 99. -/
theorem not_known_iff_rank99 (s : String) :
    isKnownSev s = false ↔ severityRank s = 99 := by
  unfold isKnownSev severityRank
  by_cases h1 : s = "Critical"
  · rw [h1]; simp
  · by_cases h2 : s = "High"
    · rw [h2]; simp
    · by_cases h3 : s = "Medium"
      · rw [h3]; simp
      · by_cases h4 : s = "Low"
        · rw [h4]; simp
        · have e1 := beq_eq_false_iff_ne.mpr h1
          have e2 := beq_eq_false_iff_ne.mpr h2
          have e3 := beq_eq_false_iff_ne.mpr h3
          have e4 := beq_eq_false_iff_ne.mpr h4
          simp [e1, e2, e3, e4]

/-- Claim C10: unrecognized severity strings receive sort rank 99, every
recognized one a rank at most 3, so in the sorted order that both the
table and the details iterate, no unrecognized-severity finding ever
precedes a recognized one, and the unrecognized findings keep their
relative input order among themselves. -/
theorem unknown_severity_sorts_last (fs : List Finding) :
    (∀ s, isKnownSev s = false ↔ severityRank s = 99) ∧
      (∀ s, isKnownSev s = true → severityRank s ≤ 3) ∧
      (sortFindings fs).Pairwise
        (fun a b => isKnownSev a.severity = false → isKnownSev b.severity = false) ∧
      (sortFindings fs).filter (fun f => !isKnownSev f.severity) =
        fs.filter (fun f => !isKnownSev f.severity) := by
  refine ⟨not_known_iff_rank99, ?_, ?_, ?_⟩
  · intro s hs
    by_contra h4
    have h99 : severityRank s = 99 := by
      unfold severityRank at h4 ⊢
      split_ifs at h4 ⊢ <;> omega
    exact absurd ((not_known_iff_rank99 s).mpr h99) (by simp [hs])
  · refine List.Pairwise.imp ?_ (List.sorted_insertionSort leRank fs)
    intro a b hab ha
    have ha99 : severityRank a.severity = 99 := (not_known_iff_rank99 _).mp ha
    have hb99 : severityRank b.severity = 99 :=
      Nat.le_antisymm (severityRank_le _) (by
        have : severityRank a.severity ≤ severityRank b.severity := hab
        omega)
    exact (not_known_iff_rank99 _).mpr hb99
  · have hp : (fun f : Finding => !isKnownSev f.severity) =
        (fun f : Finding => severityRank f.severity == 99) := by
      funext f
      cases hx : isKnownSev f.severity
      · simp [Nat.beq_eq, (not_known_iff_rank99 _).mp hx]
      · have : severityRank f.severity ≠ 99 := fun h99 =>
          absurd ((not_known_iff_rank99 _).mpr h99) (by simp [hx])
        simp [hx, beq_eq_false_iff_ne.mpr this]
    rw [hp]
    exact filter_rank_sortFindings 99 fs

/-! ## issue_from_template.py -/

/-- Lexicographic comparison of character lists by code point, as Python
compares strings. -/
def lexLe : List Char → List Char → Bool
  | [], _ => true
  | _ :: _, [] => false
  | x :: xs, y :: ys => if x = y then lexLe xs ys else decide (x < y)

/-- `a <= b` on Python strings. -/
def strLe (a b : String) : Bool := lexLe a.data b.data

/-- Insert into an ascending list, before any equal element (stability). -/
def insSorted (a : String) : List String → List String
  | [] => [a]
  | b :: l => if strLe a b then a :: b :: l else b :: insSorted a l

/-- Python's `sorted` on strings: stable ascending lexicographic sort. -/
def sortStrings : List String → List String
  | [] => []
  | a :: l => insSorted a (sortStrings l)

/-- `Path(name).stem`: the final suffix is removed when its dot is neither
the first nor the last character of the name. -/
def stemOf (name : List Char) : List Char :=
  let n := name.length
  let ridx := name.reverse.findIdx (fun c => c == '.')
  if ridx < n then
    let i := n - 1 - ridx
    if 0 < i ∧ i < n - 1 then name.take i else name
  else name

/-- `str.split("-")`: split on every dash, keeping empty segments. -/
def splitDash : List Char → List (List Char)
  | [] => [[]]
  | c :: cs =>
    if c = '-' then [] :: splitDash cs
    else
      match splitDash cs with
      | t :: ts => (c :: t) :: ts
      | [] => [[c]]

/-- Value of an ASCII digit. -/
def digitVal (c : Char) : Option Nat :=
  if '0' ≤ c ∧ c ≤ '9' then some (c.toNat - 48) else none

/-- Accumulate a digit string into a number, failing on a non-digit. -/
def digitsAux : Nat → List Char → Option Nat
  | acc, [] => some acc
  | acc, c :: cs =>
    match digitVal c with
    | some d => digitsAux (acc * 10 + d) cs
    | none => none

/-- `int(s)` on the tokens a dash-split can produce (such a token cannot
contain a minus sign): surrounding whitespace is stripped, an optional
plus sign is allowed, and then a nonempty digit string is required. -/
def pyInt (cs0 : List Char) : Option Nat :=
  let cs1 := ((cs0.dropWhile isPyWs).reverse.dropWhile isPyWs).reverse
  let cs :=
    match cs1 with
    | '+' :: rest => rest
    | rest => rest
  if cs.isEmpty then none else digitsAux 0 cs

/-- `existing[-1].stem.split("-")[1]`: the token between the first and the
second dash of the stem (a name matching the glob `prefix-*.md` always
splits into at least two parts). -/
def suffixTokenOf (name : String) : List Char :=
  (splitDash (stemOf name.data)).getD 1 []

/-- `f"{number:03d}"` for a nonnegative number. -/
def pad3 (n : Nat) : String :=
  let s := toString n
  if s.length < 3 then String.mk (List.replicate (3 - s.length) '0') ++ s else s

/-- `next_issue_id(out_dir, prefix)`, applied to the list of file names in
`out_dir` that match the glob `f"{prefix}-*.md"` (the directory listing is
the external boundary; the function itself sorts the names). -/
def next_issue_id (existing0 : List String) (pre : String) : String :=
  let existing := sortStrings existing0
  match existing.getLast? with
  | none => pre ++ "-001"
  | some lastName =>
    let number :=
      match pyInt (suffixTokenOf lastName) with
      | some n => n
      | none => existing.length
    pre ++ "-" ++ pad3 (number + 1)

/-- Existing issue files numbered 001 through 007. -/
def sevenFiles : List String :=
  [ "A11Y-001-alt-text.md", "A11Y-002-contrast.md", "A11Y-003-focus.md",
    "A11Y-004-labels.md", "A11Y-005-landmarks.md", "A11Y-006-headings.md",
    "A11Y-007-zoom.md" ]

/-! ## Theorems about issue-id allocation -/

/-- Inserting one element grows the length by one. -/
theorem length_insSorted (a : String) (l : List String) :
    (insSorted a l).length = l.length + 1 := by
  induction l with
  | nil => rfl
  | cons b l ih =>
    rw [insSorted]
    by_cases h : strLe a b
    · rw [if_pos h]
      rfl
    · rw [if_neg h]
      simp [ih]

/-- Sorting preserves the length. -/
theorem length_sortStrings (l : List String) :
    (sortStrings l).length = l.length := by
  induction l with
  | nil => rfl
  | cons a l ih => rw [sortStrings, length_insSorted, ih, List.length_cons]

/-- Counterexample to C9 as stated: with existing files `A11Y-010-a.md`
(numeric suffix 10) and `A11Y-02-b.md` (numeric suffix 2) the highest
found numeric suffix is 10, so the claimed result ends in `-011`; but the
code takes the lexicographically last filename, which is `A11Y-02-b.md`,
and returns `A11Y-003`. -/
theorem next_issue_id_not_max_suffix :
    pyInt (suffixTokenOf "A11Y-010-a.md") = some 10 ∧
      pyInt (suffixTokenOf "A11Y-02-b.md") = some 2 ∧
      next_issue_id ["A11Y-010-a.md", "A11Y-02-b.md"] "A11Y" = "A11Y-003" ∧
      "A11Y-003" ≠ "A11Y-" ++ pad3 (10 + 1) :=
  ⟨by decide, by decide, by decide, by decide⟩

/-- Claim C9 (amended): with no matching files the allocator returns
`prefix-001`; otherwise it takes the lexicographically last matching
filename, parses the token after the first dash of its stem, and returns
that number plus one, zero-padded to three digits — or the count of files
plus one when the token is not parseable.  (When all existing suffixes are
zero-padded to the same width, the lexicographically last name carries the
highest suffix, as in `-001`..`-007` giving `-008`.) -/
theorem next_issue_id_from_lex_last (existing : List String)
    (pre lastName : String) :
    (next_issue_id [] pre = pre ++ "-001") ∧
      ((sortStrings existing).getLast? = some lastName →
        (∀ n, pyInt (suffixTokenOf lastName) = some n →
          next_issue_id existing pre = pre ++ "-" ++ pad3 (n + 1)) ∧
        (pyInt (suffixTokenOf lastName) = none →
          next_issue_id existing pre = pre ++ "-" ++ pad3 (existing.length + 1))) := by
  refine ⟨rfl, fun hlast => ⟨fun n hn => ?_, fun hn => ?_⟩⟩
  · simp only [next_issue_id, hlast, hn]
  · simp only [next_issue_id, hlast, hn, length_sortStrings]

/-- Witness for the amended C9: files suffixed `-001` through `-007` give
the next id `A11Y-008`. -/
theorem next_issue_id_from_lex_last_witness :
    next_issue_id sevenFiles "A11Y" = "A11Y-008" := by
  have h := ((next_issue_id_from_lex_last sevenFiles "A11Y"
    "A11Y-007-zoom.md").2 (by decide)).1 7 (by decide)
  exact h.trans (by decide)

end A11y
